import Mathlib

/-!
Verification of the concurrent device registry and log-streaming core of
node-ios-device (src/ios-device.cpp), as a shallow embedding in Lean.

Bytes are modelled as natural numbers (0 is the null byte, 10 the newline),
machine strings as `String`, the CFDictionary registry as a list of device
records keyed by their `udid` field, and the outcomes of calls into the
external MobileDevice subsystem (connect, property reads, service start)
as explicit oracle parameters.
-/

namespace IosDevice

/-! ## Log line splitter (LogSocketCallback, ios-device.cpp lines 541-584) -/

/-- Inner scanning loop of `LogSocketCallback` (lines 562-577).  `acc` holds
the bytes of the current line in reverse (the C code writes them into `str`
at index `j`).  A newline stores a terminator, emits the accumulated line
when non-empty (`j > 0`) and keeps scanning; a null byte does the same but
then breaks out of the inner loop, leaving the unconsumed remainder of the
chunk (the C code then does `length -= i; buffer += i`); running off the end
of the chunk discards the partial line (the outer `while (length)` exits).
Returns the emitted lines together with `some remainder` after a null-byte
break, or `none` when the scan consumed the whole chunk. -/
def scanLine : List Nat → List Nat → List (List Nat) × Option (List Nat)
  | [], _ => ([], none)
  | c :: rest, acc =>
    if c = 10 then
      ((if acc = [] then (scanLine rest []).1 else acc.reverse :: (scanLine rest []).1),
        (scanLine rest []).2)
    else if c = 0 then
      ((if acc = [] then [] else [acc.reverse]), some rest)
    else
      scanLine rest (c :: acc)

theorem scanLine_some_length :
    ∀ (l acc : List Nat) (ls : List (List Nat)) (rest : List Nat),
      scanLine l acc = (ls, some rest) → rest.length < l.length := by
  intro l
  induction l with
  | nil =>
    intro acc ls rest h
    simp [scanLine] at h
  | cons c t ih =>
    intro acc ls rest h
    by_cases h10 : c = 10
    · simp only [scanLine, if_pos h10] at h
      have h2 : (scanLine t []).2 = some rest := congrArg Prod.snd h
      have h3 : scanLine t [] = ((scanLine t []).1, some rest) := by
        rw [← h2]
      exact Nat.lt_trans (ih [] (scanLine t []).1 rest h3) (Nat.lt_succ_self _)
    · by_cases h0 : c = 0
      · simp only [scanLine, if_neg h10, if_pos h0] at h
        have h2 : some t = some rest := congrArg Prod.snd h
        have h3 : rest = t := (Option.some.injEq _ _ ▸ h2).symm
        subst h3
        exact Nat.lt_succ_self _
      · simp only [scanLine, if_neg h10, if_neg h0] at h
        exact Nat.lt_trans (ih _ _ _ h) (Nat.lt_succ_self _)

theorem dropWhile_length_le (p : Nat → Bool) :
    ∀ l : List Nat, (l.dropWhile p).length ≤ l.length := by
  intro l
  induction l with
  | nil => simp
  | cons a t ih =>
    rw [List.dropWhile_cons]
    by_cases h : p a = true
    · rw [if_pos h]
      exact Nat.le_trans ih (Nat.le_succ _)
    · rw [if_neg h]

/-- Outer loop of `LogSocketCallback` (lines 552-581): skip any leading null
bytes (returning if the chunk is exhausted), run the inner scan, and after a
null-byte break continue with the remainder of the chunk.  The result is the
list of lines passed to the host callback, in call order. -/
def LogSocketCallback (buf : List Nat) : List (List Nat) :=
  match h : scanLine (buf.dropWhile (fun c => c == 0)) [] with
  | (ls, none) => ls
  | (ls, some rest) => ls ++ LogSocketCallback rest
termination_by buf.length
decreasing_by
  exact Nat.lt_of_lt_of_le (scanLine_some_length _ _ _ _ h)
    (dropWhile_length_le _ _)

/-- Modelled from the spec: split the chunk on line terminators (newline or
null byte) and deliver each complete, non-empty line exactly once in arrival
order; the trailing unterminated segment is discarded.  `acc` is the current
segment in reverse. -/
def specLinesAux : List Nat → List Nat → List (List Nat)
  | [], _ => []
  | c :: rest, acc =>
    if c = 10 ∨ c = 0 then
      (if acc = [] then [] else [acc.reverse]) ++ specLinesAux rest []
    else
      specLinesAux rest (c :: acc)

/-- Modelled from the spec: the complete non-empty lines of one chunk. -/
def completeNonEmptyLines (buf : List Nat) : List (List Nat) :=
  specLinesAux buf []

theorem scanLine_specLines :
    ∀ (l acc : List Nat),
      ((scanLine l acc).2 = none → specLinesAux l acc = (scanLine l acc).1) ∧
      (∀ rest, (scanLine l acc).2 = some rest →
        specLinesAux l acc = (scanLine l acc).1 ++ specLinesAux rest []) := by
  intro l
  induction l with
  | nil =>
    intro acc
    refine ⟨fun _ => rfl, fun rest h => ?_⟩
    simp [scanLine] at h
  | cons c t ih =>
    intro acc
    by_cases h10 : c = 10
    · constructor
      · intro hnone
        simp only [scanLine, if_pos h10] at hnone ⊢
        have := (ih []).1 hnone
        simp only [specLinesAux, if_pos (Or.inl h10), this]
        by_cases hacc : acc = []
        · simp [hacc]
        · simp [hacc]
      · intro rest hsome
        simp only [scanLine, if_pos h10] at hsome ⊢
        have := (ih []).2 rest hsome
        simp only [specLinesAux, if_pos (Or.inl h10), this]
        by_cases hacc : acc = []
        · simp [hacc]
        · simp [hacc]
    · by_cases h0 : c = 0
      · constructor
        · intro hnone
          simp [scanLine, if_neg h10, if_pos h0] at hnone
        · intro rest hsome
          simp only [scanLine, if_neg h10, if_pos h0] at hsome ⊢
          have hrt : rest = t := by
            simpa using hsome.symm
          subst hrt
          simp [specLinesAux, if_pos (Or.inr h0)]
      · have hterm : ¬(c = 10 ∨ c = 0) := by
          intro hor
          rcases hor with h | h
          · exact h10 h
          · exact h0 h
        constructor
        · intro hnone
          simp only [scanLine, if_neg h10, if_neg h0] at hnone ⊢
          simp only [specLinesAux, if_neg hterm]
          exact (ih (c :: acc)).1 hnone
        · intro rest hsome
          simp only [scanLine, if_neg h10, if_neg h0] at hsome ⊢
          simp only [specLinesAux, if_neg hterm]
          exact (ih (c :: acc)).2 rest hsome

/-- Skipping leading null bytes does not change the delivered lines. -/
theorem specLinesAux_dropWhile_zero (l : List Nat) :
    specLinesAux (l.dropWhile (fun c => c == 0)) [] = specLinesAux l [] := by
  induction l with
  | nil => rfl
  | cons c t ih =>
    by_cases h0 : c = 0
    · subst h0
      rw [List.dropWhile_cons]
      simp only [beq_self_eq_true, if_true]
      rw [ih]
      simp [specLinesAux]
    · rw [List.dropWhile_cons]
      have : ((c == 0) : Bool) = false := by
        simpa using h0
      simp [this]

theorem LogSocketCallback_eq_aux :
    ∀ (n : Nat) (buf : List Nat), buf.length ≤ n →
      LogSocketCallback buf = completeNonEmptyLines buf := by
  intro n
  induction n with
  | zero =>
    intro buf h
    have hb : buf = [] := List.length_eq_zero.mp (Nat.le_zero.mp h)
    subst hb
    rw [LogSocketCallback]
    rfl
  | succ n ih =>
    intro buf h
    rw [LogSocketCallback]
    cases hscan : scanLine (buf.dropWhile (fun c => c == 0)) [] with
    | mk ls r =>
      cases r with
      | none =>
        simp only []
        have h2 : (scanLine (buf.dropWhile (fun c => c == 0)) []).2 = none := by
          rw [hscan]
        have h1 : (scanLine (buf.dropWhile (fun c => c == 0)) []).1 = ls := by
          rw [hscan]
        have := (scanLine_specLines (buf.dropWhile (fun c => c == 0)) []).1 h2
        rw [h1] at this
        unfold completeNonEmptyLines
        rw [← specLinesAux_dropWhile_zero, this]
      | some rest =>
        simp only []
        have h2 : (scanLine (buf.dropWhile (fun c => c == 0)) []).2 = some rest := by
          rw [hscan]
        have h1 : (scanLine (buf.dropWhile (fun c => c == 0)) []).1 = ls := by
          rw [hscan]
        have hspec := (scanLine_specLines (buf.dropWhile (fun c => c == 0)) []).2 rest h2
        rw [h1] at hspec
        have hlen : rest.length ≤ n := by
          have hlt : rest.length < (buf.dropWhile (fun c => c == 0)).length :=
            scanLine_some_length _ _ _ _ hscan
          have hle : (buf.dropWhile (fun c => c == 0)).length ≤ buf.length :=
            dropWhile_length_le _ _
          omega
        have hih := ih rest hlen
        rw [hih]
        unfold completeNonEmptyLines
        rw [← specLinesAux_dropWhile_zero buf, hspec]

/-- The two nested loops of `LogSocketCallback` implement exactly the
line splitter described by the spec. -/
theorem LogSocketCallback_eq (buf : List Nat) :
    LogSocketCallback buf = completeNonEmptyLines buf :=
  LogSocketCallback_eq_aux buf.length buf (Nat.le_refl _)

/-- A chunk with no line terminator delivers nothing. -/
theorem specLinesAux_noTerm :
    ∀ (s acc : List Nat), (∀ c ∈ s, ¬(c = 10 ∨ c = 0)) →
      specLinesAux s acc = [] := by
  intro s
  induction s with
  | nil => intro acc _; rfl
  | cons c t ih =>
    intro acc hs
    have hc : ¬(c = 10 ∨ c = 0) := hs c (by simp)
    simp only [specLinesAux, if_neg hc]
    exact ih _ (fun d hd => hs d (by simp [hd]))

/-- Terminator-free bytes appended after a chunk change nothing. -/
theorem specLinesAux_append_noTerm :
    ∀ (l s acc : List Nat), (∀ c ∈ s, ¬(c = 10 ∨ c = 0)) →
      specLinesAux (l ++ s) acc = specLinesAux l acc := by
  intro l
  induction l with
  | nil =>
    intro s acc hs
    simpa using specLinesAux_noTerm s acc hs
  | cons c t ih =>
    intro s acc hs
    by_cases hc : c = 10 ∨ c = 0
    · simp only [List.cons_append, specLinesAux, if_pos hc, List.append_eq]
      rw [ih s [] hs]
    · simp only [List.cons_append, specLinesAux, if_neg hc]
      exact ih s (c :: acc) hs

/-- Multi-chunk delivery: the socket callback keeps no state between two
invocations (`str`, `i`, `j` are locals of one call), so the lines delivered
for a sequence of chunks are the concatenation of the lines each chunk
delivers on its own. -/
def deliverChunks (chunks : List (List Nat)) : List (List Nat) :=
  (chunks.map LogSocketCallback).flatten

/-- C1, counterexample: a null byte does not terminate processing of the
current chunk.  For the chunk "a\0b\n" the code delivers "a" at the null
byte and then continues with the rest of the chunk, also delivering "b";
under the claim as stated processing would have stopped after "a". -/
theorem c1_counterexample :
    LogSocketCallback [97, 0, 98, 10] = [[97], [98]]
    ∧ LogSocketCallback [97, 0, 98, 10] ≠ [[97]] := by
  constructor
  · rw [LogSocketCallback_eq]; decide
  · rw [LogSocketCallback_eq]; decide

/-- C1 (amended): delivering the chunk "abc\ndef\0" invokes the host
callback exactly twice, with "abc" then "def"; delivering "\0\0hello\0"
invokes it exactly once with "hello"; in general each complete non-empty
line of a chunk is delivered exactly once in arrival order and empty lines
are never delivered (`LogSocketCallback` equals the spec splitter
`completeNonEmptyLines`); a trailing null byte terminates processing of the
chunk trivially, while a null byte elsewhere only ends the current line and
processing continues with the remaining bytes of the chunk. -/
theorem c1_log_line_splitting :
    LogSocketCallback [97, 98, 99, 10, 100, 101, 102, 0]
        = [[97, 98, 99], [100, 101, 102]]
    ∧ LogSocketCallback [0, 0, 104, 101, 108, 108, 111, 0]
        = [[104, 101, 108, 108, 111]]
    ∧ ∀ buf, LogSocketCallback buf = completeNonEmptyLines buf := by
  refine ⟨?_, ?_, LogSocketCallback_eq⟩
  · rw [LogSocketCallback_eq]; decide
  · rw [LogSocketCallback_eq]; decide

/-- C10: bytes after the last line terminator of a chunk are discarded:
appending terminator-free bytes to a chunk changes nothing, and since the
callback keeps no buffer between invocations, a line split across two chunk
deliveries ("ab" then "cd\n") is never delivered as one complete line -
these two chunks deliver only "cd", whereas the same bytes in a single
chunk would deliver "abcd". -/
theorem c10_tail_bytes_discarded :
    (∀ (buf tail : List Nat), (∀ c ∈ tail, ¬(c = 10 ∨ c = 0)) →
        LogSocketCallback (buf ++ tail) = LogSocketCallback buf)
    ∧ LogSocketCallback [97, 98] = []
    ∧ deliverChunks [[97, 98], [99, 100, 10]] = [[99, 100]]
    ∧ [97, 98, 99, 100] ∉ deliverChunks [[97, 98], [99, 100, 10]]
    ∧ LogSocketCallback [97, 98, 99, 100, 10] = [[97, 98, 99, 100]] := by
  refine ⟨?_, ?_, ?_, ?_, ?_⟩
  · intro buf tail h
    rw [LogSocketCallback_eq, LogSocketCallback_eq]
    exact specLinesAux_append_noTerm buf tail [] h
  · rw [LogSocketCallback_eq]; decide
  · simp only [deliverChunks, List.map, LogSocketCallback_eq]; decide
  · simp only [deliverChunks, List.map, LogSocketCallback_eq]; decide
  · rw [LogSocketCallback_eq]; decide

/-- C10, witness: the unterminated bytes "bc" after the last newline of
the chunk "a\nbc" are discarded. -/
theorem c10_witness :
    LogSocketCallback [97, 10, 98, 99] = LogSocketCallback [97, 10] :=
  c10_tail_bytes_discarded.1 [97, 10] [98, 99] (by decide)

/-! ## Device records and the registry (ios-device.cpp lines 102-236, 32-40)

The `Device` class holds the MobileDevice handle, the property map, the
`connected` counter, the `hostConnected` flag and the log-subscription
fields.  The global `connectedDevices` CFDictionary maps a device's udid to
its `Device` object; we model it as a list of records keyed by their `udid`
field.  Identifiers and property keys/values are `String`s; the opaque
subscription resources (`logConnection`, `logSocket`, `logSource`,
`logCallback`) are modelled as `Option Nat` handles (`none` = NULL). -/

/-- A device record (class `Device`, lines 102-236). -/
structure Device where
  udid : String
  props : List (String × String)
  connected : Int
  hostConnected : Bool
  logConnection : Option Nat
  logSocket : Option Nat
  logSource : Option Nat
  logCallback : Option Nat
deriving DecidableEq

/-- The `Device` constructor (lines 117-125): captures the udid from the
native handle, stores it under the "udid" property key, and NULLs the
log-subscription fields (`logConnection` is left uninitialized in the C++;
we model it as `none`). -/
def makeDevice (u : String) : Device :=
  { udid := u
    props := [("udid", u)]
    connected := 0
    hostConnected := false
    logConnection := none
    logSocket := none
    logSource := none
    logCallback := none }

/-- The udids currently registered (the CFDictionary keys). -/
def regKeys (reg : List Device) : List String :=
  reg.map (fun d => d.udid)

/-- `CFDictionaryContainsKey(connectedDevices, udid)`: the dictionary is
created with `kCFTypeDictionaryKeyCallBacks`, so keys compare by string
equality. -/
def containsKey (reg : List Device) (u : String) : Bool :=
  reg.any (fun d => d.udid == u)

/-- `CFDictionaryGetValue(connectedDevices, udid)`. -/
def getValue (reg : List Device) (u : String) : Option Device :=
  reg.find? (fun d => d.udid == u)

/-- `CFDictionaryRemoveValue(connectedDevices, udid)`. -/
def removeValue (reg : List Device) (u : String) : List Device :=
  reg.filter (fun d => !(d.udid == u))

/-- In-place mutation of the record that the dictionary points to for udid
`u` (the C code mutates the `Device*` stored in the dictionary). -/
def updateValue (reg : List Device) (u : String) (d : Device) : List Device :=
  reg.map (fun x => if x.udid == u then d else x)

/-- `std::map<std::string,std::string>::operator[]` assignment: replace the
value when the key is present, insert otherwise. -/
def insertProp : List (String × String) → String → String → List (String × String)
  | [], k, v => [(k, v)]
  | (k0, v0) :: t, k, v =>
    if k0 == k then (k0, v) :: t else (k0, v0) :: insertProp t k v

/-- The ten descriptive properties fetched by `getDeviceInfo`
(lines 258-267): property-map key paired with the MobileDevice value name. -/
def propKeys : List (String × String) :=
  [("name", "DeviceName"),
   ("buildVersion", "BuildVersion"),
   ("cpuArchitecture", "CPUArchitecture"),
   ("deviceClass", "DeviceClass"),
   ("deviceColor", "DeviceColor"),
   ("hardwareModel", "HardwareModel"),
   ("modelNumber", "ModelNumber"),
   ("productType", "ProductType"),
   ("productVersion", "ProductVersion"),
   ("serialNumber", "SerialNumber")]

/-- `Device::set` (lines 225-235): `AMDeviceCopyValue` may return NULL
(modelled as `none`), in which case the property is simply not stored. -/
def deviceSet (d : Device) (key : String) (v : Option String) : Device :=
  match v with
  | none => d
  | some s => { d with props := insertProp d.props key s }

/-- `Device::connect` (lines 148-190): `connected++` happens first and the
early return fires when the old value was positive; otherwise the connect /
pair / start-session sequence runs against the external subsystem and may
throw (`ok = false`).  Note that the counter stays incremented even when
the sequence throws. -/
def devConnect (ok : Bool) (d : Device) : Device × Bool :=
  if d.connected > 0 then ({ d with connected := d.connected + 1 }, true)
  else ({ d with connected := d.connected + 1 }, ok)

/-- `Device::disconnect` (lines 197-203): on `force`, or when the
decremented counter is at or below zero, the counter is clamped to 0 and
the session is stopped. -/
def devDisconnect (force : Bool) (d : Device) : Device :=
  if force then { d with connected := 0 }
  else if d.connected - 1 ≤ 0 then { d with connected := 0 }
  else { d with connected := d.connected - 1 }

/-! ## Pending-work barrier counter (lines 35-37, 281-287, 392-396) -/

/-- The increment performed by `on_device_notification` before spawning a
worker (lines 393-396): clamp a negative counter to 0, then increment. -/
def beginPending (p : Int) : Int :=
  (if p < 0 then 0 else p) + 1

/-- The decrement performed at the end of `getDeviceInfo` (lines 281-287):
decrement only when positive, and `notify_one` exactly when the resulting
counter is 0.  Returns the new counter and whether the notify fired. -/
def endPending (p : Int) : Int × Bool :=
  ((if p > 0 then p - 1 else p), (if p > 0 then p - 1 else p) == 0)

/-! ## Enrichment worker (getDeviceInfo, lines 242-288) -/

/-- Outcomes of the external MobileDevice calls one enrichment makes:
whether connect/pair/session succeeds, the value returned for each
described property (`none` = NULL), and the number returned for the
"HostAttached" query. -/
structure EnrichOutcome where
  connectOk : Bool
  fetch : String → Option String
  hostAttachedNum : Int

/-- The try-block plus final disconnect of `getDeviceInfo` (lines 254-279):
connect (a throw is caught and swallowed, skipping the reads), on success
fetch the ten properties and the host-attached flag, then disconnect on
every path. -/
def workerEnrich (o : EnrichOutcome) (d : Device) : Device :=
  devDisconnect false
    (if (devConnect o.connectOk d).2 then
      { propKeys.foldl (fun a kv => deviceSet a kv.1 (o.fetch kv.2))
          (devConnect o.connectOk d).1 with
        hostConnected := o.hostAttachedNum == 1 }
     else (devConnect o.connectOk d).1)

/-- The global mutable state: the `connectedDevices` dictionary, the
`pendingEvents` counter and the `devicesChanged` flag (lines 32-39). -/
structure SysState where
  registry : List Device
  pending : Int
  changed : Bool
deriving DecidableEq

/-- State at module initialization (line 707): empty dictionary, counter 0,
flag clear. -/
def initState : SysState :=
  { registry := [], pending := 0, changed := false }

/-! ## Action traces

To reason about lock-holding and ordering we record, for each routine, the
sequence of observable actions it performs, in source order.  The RAII
locks of `getDeviceInfo` (lines 243-244) are scoped to the whole function
body, so their release events come last. -/

/-- Observable actions of the dispatcher, workers, detach teardown and the
`devices()` query. -/
inductive Ev
  | constructRecord
  | clampPending
  | incPending
  | spawnWorker
  | lockExclAcq
  | lockExclRel
  | lockSharedAcq
  | lockSharedRel
  | setChanged
  | insertRecord
  | removeRecord
  | connect
  | readProp
  | readHostAttached
  | disconnect
  | pendingLockAcq
  | pendingLockRel
  | decPending
  | notifyWaiter
  | awaitBarrier
  | snapshotRead
  | stopSession
  | disconnectNative
  | freeLogCallback
  | releaseLogSource
  | releaseLogSocket
deriving DecidableEq

/-- Whether the exclusive registry lock is held just before the action at
index `i` of a trace. -/
def exclHeld (tr : List Ev) (i : Nat) : Bool :=
  decide ((tr.take i).count Ev.lockExclRel < (tr.take i).count Ev.lockExclAcq)

/-- The action trace of one `getDeviceInfo` run (lines 242-288): the
upgrade-to-unique lock on `deviceMutex` is taken at function entry and,
being a scoped RAII object, released only at function exit - after the
blocking connect, the property reads and the pending-counter update.
`present` is whether the dictionary already contained the udid, `ok`
whether connect succeeded (or the device was already connected), `notify`
whether the pending counter reached 0. -/
def getDeviceInfoTrace (present ok notify : Bool) : List Ev :=
  [Ev.lockExclAcq, Ev.setChanged]
  ++ (if present then [] else [Ev.insertRecord])
  ++ [Ev.connect]
  ++ (if ok then (propKeys.map (fun _ => Ev.readProp)) ++ [Ev.readHostAttached] else [])
  ++ [Ev.disconnect, Ev.pendingLockAcq, Ev.decPending]
  ++ (if notify then [Ev.notifyWaiter] else [])
  ++ [Ev.pendingLockRel, Ev.lockExclRel]

/-- `getDeviceInfo` (lines 242-288), run to completion: under the exclusive
registry lock, set the `devicesChanged` flag, insert the device when its
udid is not yet a key (the dictionary then points at the very object the
worker keeps mutating, so the final entry is the enriched record), run the
enrichment (failures swallowed), disconnect, and decrement the pending
counter (notifying at 0). -/
def getDeviceInfoRun (o : EnrichOutcome) (dev : Device) (s : SysState) :
    SysState × List Ev :=
  ({ registry :=
      if containsKey s.registry dev.udid then s.registry
      else s.registry ++ [workerEnrich o dev]
     pending := (endPending s.pending).1
     changed := true },
    getDeviceInfoTrace (containsKey s.registry dev.udid)
      (decide (dev.connected > 0) || o.connectOk) (endPending s.pending).2)

/-- `Device::~Device` (lines 130-142): force-disconnect, then free the
log callback / run-loop source / socket when present.  The destructor does
not see any NULLing of those fields by earlier code paths. -/
def destructorTrace (d : Device) : List Ev :=
  [Ev.stopSession, Ev.disconnectNative]
  ++ (if d.logCallback.isSome then [Ev.freeLogCallback] else [])
  ++ (if d.logSource.isSome then [Ev.releaseLogSource] else [])
  ++ (if d.logSocket.isSome then [Ev.releaseLogSocket] else [])

/-- The detach branch of `on_device_notification` (lines 400-423): under
the exclusive lock, remove the record, free its log callback / source /
socket when present (without NULLing the pointers), `delete` the record
(which runs the destructor and frees them again), and set the changed
flag. -/
def detachTeardownTrace (d : Device) : List Ev :=
  [Ev.lockExclAcq, Ev.removeRecord]
  ++ (if d.logCallback.isSome then [Ev.freeLogCallback] else [])
  ++ (if d.logSource.isSome then [Ev.releaseLogSource] else [])
  ++ (if d.logSocket.isSome then [Ev.releaseLogSocket] else [])
  ++ destructorTrace d
  ++ [Ev.setChanged, Ev.lockExclRel]

/-! ## Notification dispatcher (on_device_notification, lines 379-424) -/

/-- The two MobileDevice notification messages handled. -/
inductive AmMsg
  | connected
  | disconnected
deriving DecidableEq

/-- One attach/detach notification: the message, the udid read from the
native handle, and the outcome of the external calls the enrichment worker
for this event would make. -/
structure AEvent where
  msg : AmMsg
  udid : String
  outcome : EnrichOutcome

/-- `on_device_notification` (lines 379-424), with the spawned worker run
synchronously to completion (sequential interleaving).  On attach of an
unknown udid: construct the record, clamp-and-increment the pending
counter, spawn the worker (which inserts the record itself).  On detach of
a known udid: remove and tear the record down and set the changed flag.
Anything else is a no-op. -/
def on_device_notification (e : AEvent) (s : SysState) : SysState × List Ev :=
  if containsKey s.registry e.udid = false ∧ e.msg = AmMsg.connected then
    ((getDeviceInfoRun e.outcome (makeDevice e.udid)
        { s with pending := beginPending s.pending }).1,
      [Ev.constructRecord, Ev.pendingLockAcq, Ev.clampPending, Ev.incPending,
       Ev.pendingLockRel, Ev.spawnWorker]
      ++ (getDeviceInfoRun e.outcome (makeDevice e.udid)
          { s with pending := beginPending s.pending }).2)
  else if containsKey s.registry e.udid = true ∧ e.msg = AmMsg.disconnected then
    ({ s with registry := removeValue s.registry e.udid, changed := true },
      match getValue s.registry e.udid with
      | some d => detachTeardownTrace d
      | none => [])
  else (s, [])

/-- A serialized stream of notifications processed in order. -/
def processEvents (evs : List AEvent) (s : SysState) : SysState × List Ev :=
  evs.foldl (fun acc e =>
    let r := on_device_notification e acc.1
    (r.1, acc.2 ++ r.2)) (s, [])

/-! ## Event-loop pump (pump_run_loop, lines 312-341) -/

/-- Host-visible actions of one pump tick, in source order: the "debug"
emit (line 326), the clearing of `devicesChanged` (line 330), and the
"devicesChanged" emit (lines 332-337). -/
inductive PumpAct
  | emitDebugMsg
  | clearChanged
  | emitDevicesChanged
deriving DecidableEq

/-- `pump_run_loop` (lines 312-341): `CFRunLoopRunInMode` drains the
external event queue, invoking `on_device_notification` synchronously for
each pending notification (`evs`); afterwards, if `devicesChanged` is set
it is cleared (before the emit, line 330) and a single "devicesChanged"
event is emitted. -/
def pump_run_loop (evs : List AEvent) (s : SysState) : SysState × List PumpAct :=
  let s1 := (processEvents evs s).1
  if s1.changed then
    ({ s1 with changed := false },
      [PumpAct.emitDebugMsg, PumpAct.clearChanged, PumpAct.emitDevicesChanged])
  else (s1, [])

/-! ## The devices() query (lines 348-374) -/

/-- The snapshot taken by `devices()` (lines 356-369): one property map per
registered device, in dictionary order. -/
def devicesSnapshot (reg : List Device) : List (List (String × String)) :=
  reg.map (fun d => d.props)

/-- The action trace of a `devices()` call that found `pendingEvents > 0`:
lock the pending mutex, wait on the condition, take the shared registry
lock, copy the snapshot, then release both locks (reverse declaration
order). -/
def devicesTrace : List Ev :=
  [Ev.pendingLockAcq, Ev.awaitBarrier, Ev.lockSharedAcq, Ev.snapshotRead,
   Ev.lockSharedRel, Ev.pendingLockRel]

/-! ## Interleaved barrier model (lines 348-352, 281-287, 392-396)

The pending counter is touched by three `pendingMutex`-protected critical
sections, each atomic: the clamp-and-increment in the dispatcher, the
decrement-and-notify at the end of a worker, and the check-then-wait at the
start of `devices()`.  `devices()` runs on the single host thread, so at
most one waiter exists; condition-variable waits are modelled without
spurious wakeups. -/

/-- The host thread calling `devices()`: not yet at the barrier, blocked in
`pendingCond.wait`, or past the barrier. -/
inductive MainThread
  | idle
  | waiting
  | released
deriving DecidableEq

/-- Barrier state: the `pendingEvents` counter and the host thread. -/
structure BState where
  pending : Int
  main : MainThread
deriving DecidableEq

/-- One atomic critical section on `pendingMutex`.  `beginEv` is the
dispatcher's clamp-and-increment (lines 392-396); `endEv` is the worker's
decrement, whose `notify_one` (fired exactly when the new counter is 0)
releases the waiter if one is blocked (lines 281-287); `awaitEv` is the
entry of `devices()` (lines 349-352): wait only when the counter is
positive, otherwise proceed immediately. -/
inductive BStep : BState → BState → Prop
  | beginEv (s : BState) :
      BStep s ⟨beginPending s.pending, s.main⟩
  | endEv (s : BState) :
      BStep s ⟨(endPending s.pending).1,
        if (endPending s.pending).2 && (s.main == MainThread.waiting) then
          MainThread.released
        else s.main⟩
  | awaitEv (s : BState) (h : s.main = MainThread.idle) :
      BStep s ⟨s.pending,
        if s.pending > 0 then MainThread.waiting else MainThread.released⟩

/-- Barrier states reachable from process start (counter 0, host idle). -/
inductive BReach : BState → Prop
  | init : BReach ⟨0, MainThread.idle⟩
  | step {s t : BState} : BReach s → BStep s t → BReach t

/-! ## Spec-side folds and concrete fixtures -/

/-- Modelled from the spec: the effect of one attach/detach event on the
set of currently-attached identifiers (attach adds when absent, detach
removes). -/
def attachedStep (acc : List String) (e : AEvent) : List String :=
  match e.msg with
  | AmMsg.connected => if acc.contains e.udid then acc else acc ++ [e.udid]
  | AmMsg.disconnected => acc.filter (fun v => !(v == e.udid))

/-- Modelled from the spec: the list of currently-attached identifiers
after a sequence of attach/detach events. -/
def attachedFold (evs : List AEvent) : List String :=
  evs.foldl attachedStep []

/-- Modelled from the claim: no two consecutive attach events carry the
same identifier. -/
def noDupConsecAttach : List AEvent → Bool
  | [] => true
  | [_] => true
  | a :: b :: t =>
    (!(a.msg == AmMsg.connected && b.msg == AmMsg.connected
        && a.udid == b.udid))
      && noDupConsecAttach (b :: t)

/-- A fixed oracle: connect succeeds, every property read returns NULL,
the device reports host-attached. -/
def o0 : EnrichOutcome :=
  { connectOk := true, fetch := fun _ => none, hostAttachedNum := 1 }

/-- A fixed oracle whose connect/pair/session sequence fails. -/
def oFail : EnrichOutcome :=
  { connectOk := false, fetch := fun _ => none, hostAttachedNum := 0 }

/-- The full action trace of one attach notification for the unknown udid
"a" arriving in the initial state (dispatcher plus its worker). -/
def attachTraceA : List Ev :=
  (on_device_notification ⟨AmMsg.connected, "a", o0⟩ initState).2

/-- A registered device that has an active log subscription. -/
def devWithSub : Device :=
  { makeDevice "a" with
    logConnection := some 1
    logSocket := some 2
    logSource := some 3
    logCallback := some 4 }

/-- The action trace of a detach notification for "a" while it holds an
active log subscription. -/
def detachTraceSub : List Ev :=
  (on_device_notification ⟨AmMsg.disconnected, "a", o0⟩
    { registry := [devWithSub], pending := 0, changed := false }).2

/-! ## Claim theorems: worker locking and attach ordering -/

/-- C3, counterexample: in the attach of udid "a" to the initial state, the
enrichment worker performs its blocking device I/O - the connect, every
property read, the host-attached read and the disconnect - while the
exclusive registry lock is held: the `boost::upgrade_to_unique_lock` taken
at the top of `getDeviceInfo` (lines 243-244) is scoped to the whole
function body. -/
theorem c3_counterexample :
    Ev.connect ∈ attachTraceA
    ∧ Ev.readProp ∈ attachTraceA
    ∧ exclHeld attachTraceA (attachTraceA.indexOf Ev.connect) = true
    ∧ exclHeld attachTraceA (attachTraceA.indexOf Ev.readProp) = true
    ∧ exclHeld attachTraceA (attachTraceA.indexOf Ev.readHostAttached) = true
    ∧ exclHeld attachTraceA (attachTraceA.indexOf Ev.disconnect) = true := by
  decide

/-- C3 (amended): every enrichment worker acquires the exclusive registry
lock once at entry and holds it for its entire run - including the blocking
connect/pair/session call, all property reads and the final disconnect -
releasing it only at function exit; the lock is not limited to brief
insert/update critical sections.  This holds for every combination of the
run's branch conditions (record already present, connect success, barrier
notify). -/
theorem c3_lock_held_for_entire_worker :
    ∀ present ok notify : Bool,
      (getDeviceInfoTrace present ok notify).head? = some Ev.lockExclAcq
      ∧ (getDeviceInfoTrace present ok notify).getLast? = some Ev.lockExclRel
      ∧ ((List.range (getDeviceInfoTrace present ok notify).length).all
          (fun i => i == 0 || exclHeld (getDeviceInfoTrace present ok notify) i))
          = true := by
  decide

/-- C4, counterexample: processing an attach of the unknown udid "a" in the
initial state, the dispatcher spawns the enrichment worker before any
insertion into the registry happens - the insert is performed by the worker
itself (lines 250-252), not by the dispatcher (lines 387-398), so the
record is not yet in the registry at the moment the worker starts. -/
theorem c4_counterexample :
    attachTraceA.indexOf Ev.spawnWorker < attachTraceA.indexOf Ev.insertRecord
    ∧ Ev.insertRecord ∈ attachTraceA := by
  decide

/-- C4 (amended): on an attach notification for an identifier not already
present, the steps occur in this order: the Device Record is constructed
capturing the identifier from the native handle, the Pending-Work Barrier
counter is clamped and incremented, the Enrichment Worker is spawned, and
the worker then inserts the record into the Registry (under the exclusive
lock) before performing any device I/O - so the record is present in the
Registry no later than the worker's first enrichment step, though not
necessarily at the moment the worker starts. -/
theorem c4_attach_order :
    attachTraceA.indexOf Ev.constructRecord < attachTraceA.indexOf Ev.clampPending
    ∧ attachTraceA.indexOf Ev.clampPending < attachTraceA.indexOf Ev.incPending
    ∧ attachTraceA.indexOf Ev.incPending < attachTraceA.indexOf Ev.spawnWorker
    ∧ attachTraceA.indexOf Ev.spawnWorker < attachTraceA.indexOf Ev.insertRecord
    ∧ attachTraceA.indexOf Ev.insertRecord < attachTraceA.indexOf Ev.connect
    ∧ Ev.insertRecord ∈ attachTraceA
    ∧ Ev.connect ∈ attachTraceA
    ∧ (∀ ok notify : Bool,
        (getDeviceInfoTrace false ok notify).indexOf Ev.insertRecord
          < (getDeviceInfoTrace false ok notify).indexOf Ev.connect) := by
  decide

/-- C5: the claim that each log-subscription resource is released exactly
once is violated by the code.  On a detach notification for a device with
an active log subscription, the detach branch frees the callback listener,
run-loop source and socket (lines 411-419) and then `delete device` runs
the destructor, which - the pointers never having been NULLed - frees all
three again (lines 130-142): each subscription resource is released exactly
twice.  The native handle session itself is stopped once, in the
destructor.  Without a subscription nothing is doubly released. -/
theorem c5_double_release :
    detachTraceSub.count Ev.freeLogCallback = 2
    ∧ detachTraceSub.count Ev.releaseLogSource = 2
    ∧ detachTraceSub.count Ev.releaseLogSocket = 2
    ∧ detachTraceSub.count Ev.stopSession = 1
    ∧ (detachTeardownTrace (makeDevice "a")).count Ev.freeLogCallback = 0
    ∧ (detachTeardownTrace (makeDevice "a")).count Ev.stopSession = 1 := by
  decide

/-! ## Claim theorems: barrier and pump -/

/-- C2: in the barrier model, (1) a blocked `devices()` caller leaves the
waiting state only through a worker's decrement step whose resulting
counter is 0 - at the moment of release the counter reads 0; (2) when the
counter is already 0 the caller passes the barrier immediately; (3) the
counter never goes negative in any reachable state; (4) the snapshot then
taken returns one property map per registered device; and (5) in the
`devices()` action trace the barrier wait precedes the registry snapshot. -/
theorem c2_devices_blocks_until_drain :
    (∀ s t : BState, BStep s t → s.main = MainThread.waiting →
        t.main ≠ MainThread.waiting →
        t.pending = 0 ∧ t.main = MainThread.released)
    ∧ (∀ s : BState, s.main = MainThread.idle → s.pending = 0 →
        BStep s ⟨s.pending, MainThread.released⟩)
    ∧ (∀ s : BState, BReach s → 0 ≤ s.pending)
    ∧ (∀ reg : List Device, (devicesSnapshot reg).length = reg.length)
    ∧ devicesTrace.indexOf Ev.awaitBarrier < devicesTrace.indexOf Ev.snapshotRead := by
  refine ⟨?_, ?_, ?_, ?_, ?_⟩
  · intro s t hst
    cases hst with
    | beginEv =>
      intro hw hnw
      exact absurd hw hnw
    | endEv =>
      intro hw hnw
      have hmain : (s.main == MainThread.waiting) = true := by
        simp [hw]
      cases h2 : (endPending s.pending).2 with
      | false =>
        exfalso
        apply hnw
        show (if (endPending s.pending).2 && (s.main == MainThread.waiting) then
            MainThread.released else s.main) = MainThread.waiting
        rw [h2]
        simpa using hw
      | true =>
        constructor
        · show (endPending s.pending).1 = 0
          have h3 : ((if s.pending > 0 then s.pending - 1 else s.pending : Int) == 0)
              = true := h2
          exact beq_iff_eq.mp h3
        · show (if (true && (s.main == MainThread.waiting)) = true then
              MainThread.released else s.main) = MainThread.released
          rw [hmain]
          rfl
    | awaitEv h =>
      intro hw _
      rw [h] at hw
      exact absurd hw (by decide)
  · intro s h1 h2
    have hstep := BStep.awaitEv s h1
    rw [h2] at hstep
    rw [h2]
    have hno : ¬((0 : Int) > 0) := by decide
    rw [if_neg hno] at hstep
    exact hstep
  · intro s hr
    induction hr with
    | init => decide
    | @step s1 t1 _ hstep ih =>
      cases hstep with
      | beginEv =>
        show (0 : Int) ≤ beginPending s1.pending
        unfold beginPending
        split <;> omega
      | endEv =>
        show (0 : Int) ≤ if s1.pending > 0 then s1.pending - 1 else s1.pending
        split <;> omega
      | awaitEv h =>
        exact ih
  · intro reg
    simp [devicesSnapshot]
  · decide

/-- C2, witness: in the concrete transition from counter 1 with a blocked
caller, the worker's decrement releases the caller and the counter reads 0;
a caller at counter 0 passes immediately; the initial state has a
non-negative counter; and the snapshot of a one-device registry has one
entry. -/
theorem c2_witness :
    ((⟨0, MainThread.released⟩ : BState).pending = 0
        ∧ (⟨0, MainThread.released⟩ : BState).main = MainThread.released)
    ∧ BStep ⟨0, MainThread.idle⟩ ⟨(0 : Int), MainThread.released⟩
    ∧ (0 : Int) ≤ (⟨0, MainThread.idle⟩ : BState).pending
    ∧ (devicesSnapshot [makeDevice "a"]).length = [makeDevice "a"].length := by
  refine ⟨?_, ?_, ?_, ?_⟩
  · refine c2_devices_blocks_until_drain.1 ⟨1, MainThread.waiting⟩
      ⟨0, MainThread.released⟩ ?_ rfl (by decide)
    have h : BStep ⟨1, MainThread.waiting⟩
        ⟨(endPending (1 : Int)).1,
          if (endPending (1 : Int)).2 && (MainThread.waiting == MainThread.waiting)
          then MainThread.released else MainThread.waiting⟩ :=
      BStep.endEv ⟨1, MainThread.waiting⟩
    have heq : (⟨(endPending (1 : Int)).1,
        if (endPending (1 : Int)).2 && (MainThread.waiting == MainThread.waiting)
        then MainThread.released else MainThread.waiting⟩ : BState)
        = ⟨0, MainThread.released⟩ := by decide
    exact heq ▸ h
  · exact c2_devices_blocks_until_drain.2.1 ⟨0, MainThread.idle⟩ rfl rfl
  · exact c2_devices_blocks_until_drain.2.2.1 ⟨0, MainThread.idle⟩ BReach.init
  · exact c2_devices_blocks_until_drain.2.2.2.1 [makeDevice "a"]

/-- C9: if the changed flag is clear after the tick's drain, the pump emits
no "devicesChanged" notification; if it is set, the tick emits its actions
in source order - the flag is cleared strictly before the notification is
emitted - with exactly one notification, the resulting flag is clear, and a
subsequent pump with no new registry mutation emits nothing. -/
theorem c9_pump_emits_once :
    (∀ (evs : List AEvent) (s : SysState),
        (processEvents evs s).1.changed = false →
        pump_run_loop evs s = ((processEvents evs s).1, []))
    ∧ (∀ (evs : List AEvent) (s : SysState),
        (processEvents evs s).1.changed = true →
        (pump_run_loop evs s).2
            = [PumpAct.emitDebugMsg, PumpAct.clearChanged, PumpAct.emitDevicesChanged]
        ∧ (pump_run_loop evs s).2.count PumpAct.emitDevicesChanged = 1
        ∧ (pump_run_loop evs s).2.indexOf PumpAct.clearChanged
            < (pump_run_loop evs s).2.indexOf PumpAct.emitDevicesChanged
        ∧ (pump_run_loop evs s).1.changed = false
        ∧ pump_run_loop [] (pump_run_loop evs s).1
            = ((pump_run_loop evs s).1, [])) := by
  constructor
  · intro evs s h
    simp [pump_run_loop, h]
  · intro evs s h
    refine ⟨?_, ?_, ?_, ?_, ?_⟩
    · simp [pump_run_loop, h]
    · simp [pump_run_loop, h]
    · simp [pump_run_loop, h]
    · simp [pump_run_loop, h]
    · have h1 : (pump_run_loop evs s).1.changed = false := by
        simp [pump_run_loop, h]
      set x := (pump_run_loop evs s).1 with hx
      simp [pump_run_loop, processEvents, h1]

/-- C9, witness: pumping with an empty drain and the flag set emits the
three actions once and clears the flag. -/
theorem c9_witness :
    (pump_run_loop [] { registry := [], pending := 0, changed := true }).2
        = [PumpAct.emitDebugMsg, PumpAct.clearChanged, PumpAct.emitDevicesChanged]
    ∧ (pump_run_loop [] { registry := [], pending := 0, changed := true }).2.count
        PumpAct.emitDevicesChanged = 1
    ∧ (pump_run_loop [] { registry := [], pending := 0, changed := true }).2.indexOf
          PumpAct.clearChanged
        < (pump_run_loop [] { registry := [], pending := 0, changed := true }).2.indexOf
          PumpAct.emitDevicesChanged
    ∧ (pump_run_loop [] { registry := [], pending := 0, changed := true }).1.changed
        = false
    ∧ pump_run_loop []
          (pump_run_loop [] { registry := [], pending := 0, changed := true }).1
        = ((pump_run_loop [] { registry := [], pending := 0, changed := true }).1, []) :=
  c9_pump_emits_once.2 [] { registry := [], pending := 0, changed := true } rfl

/-! ## Claim theorems: stream_log (log(), lines 591-675) -/

/-- Outcomes of the external calls `log()` makes: connect/pair/session,
`AMDeviceStartService` for the syslog relay, `CFSocketCreateWithNative`,
`CFSocketCreateRunLoopSource`. -/
structure LogOracle where
  connectOk : Bool
  startServiceOk : Bool
  socketOk : Bool
  sourceOk : Bool

/-- The result `log()` reports to the caller (Nan::ThrowError errors, or
normal return). -/
inductive LogResult
  | ok
  | errNotConnected
  | errNotHostAttached
  | errConnection
  | errService
  | errSocket
  | errSource
deriving DecidableEq

/-- `log()` (lines 591-675), after argument marshaling (lines 594-623,
host-binding validation, modelled away; the fresh `Listener` allocated at
line 622 is not installed anywhere until the very end).  Look the udid up
(errNotConnected when absent, lines 612-616); fail when the device is not
host-attached, leaving the record untouched (lines 631-633); connect and
start the syslog-relay service, surfacing a thrown error (the `connected`
counter mutation of a failed connect persists on the registry's record,
lines 637-642); disconnect; create the socket and run-loop source
(lines 647-655); then tear down any previous subscription and install the
new one (lines 659-672). -/
def logMethod (o : LogOracle) (conn sock src cb : Nat) (reg : List Device)
    (u : String) : List Device × LogResult :=
  match getValue reg u with
  | none => (reg, LogResult.errNotConnected)
  | some dev =>
    if dev.hostConnected = false then (reg, LogResult.errNotHostAttached)
    else
      let c := devConnect o.connectOk dev
      if c.2 = false then (updateValue reg u c.1, LogResult.errConnection)
      else if o.startServiceOk = false then
        (updateValue reg u c.1, LogResult.errService)
      else
        let d2 := devDisconnect false c.1
        if o.socketOk = false then (updateValue reg u d2, LogResult.errSocket)
        else if o.sourceOk = false then
          (updateValue reg u d2, LogResult.errSource)
        else
          let d3 := { d2 with
            logConnection := some conn
            logSocket := some sock
            logSource := some src
            logCallback := some cb }
          (updateValue reg u d3, LogResult.ok)

/-- An absent key means the lookup finds nothing. -/
theorem containsKey_false_getValue :
    ∀ (reg : List Device) (u : String),
      containsKey reg u = false → getValue reg u = none := by
  intro reg u
  induction reg with
  | nil => intro _; rfl
  | cons d t ih =>
    intro h
    simp only [containsKey, List.any_cons, Bool.or_eq_false_iff] at h
    show List.find? (fun d => d.udid == u) (d :: t) = none
    rw [List.find?_cons_of_neg _ (by rw [h.1]; exact Bool.false_ne_true)]
    exact ih h.2

/-- C7: `stream_log` fails with the not-connected error when the udid is
absent; with the not-host-attached error - leaving the registry, and so the
record's subscription fields, entirely unchanged - when the record is not
host-attached; and a connect or service-start failure is surfaced to the
caller as the corresponding error. -/
theorem c7_stream_log_errors :
    (∀ (o : LogOracle) (conn sock src cb : Nat) (reg : List Device) (u : String),
        containsKey reg u = false →
        logMethod o conn sock src cb reg u = (reg, LogResult.errNotConnected))
    ∧ (∀ (o : LogOracle) (conn sock src cb : Nat) (reg : List Device)
          (u : String) (dev : Device),
        getValue reg u = some dev → dev.hostConnected = false →
        logMethod o conn sock src cb reg u = (reg, LogResult.errNotHostAttached))
    ∧ (∀ (o : LogOracle) (conn sock src cb : Nat) (reg : List Device)
          (u : String) (dev : Device),
        getValue reg u = some dev → dev.hostConnected = true →
        dev.connected = 0 → o.connectOk = false →
        (logMethod o conn sock src cb reg u).2 = LogResult.errConnection)
    ∧ (∀ (o : LogOracle) (conn sock src cb : Nat) (reg : List Device)
          (u : String) (dev : Device),
        getValue reg u = some dev → dev.hostConnected = true →
        (devConnect o.connectOk dev).2 = true → o.startServiceOk = false →
        (logMethod o conn sock src cb reg u).2 = LogResult.errService) := by
  refine ⟨?_, ?_, ?_, ?_⟩
  · intro o conn sock src cb reg u h
    simp [logMethod, containsKey_false_getValue reg u h]
  · intro o conn sock src cb reg u dev hget hhost
    simp [logMethod, hget, hhost]
  · intro o conn sock src cb reg u dev hget hhost hc0 hok
    have hc2 : (devConnect o.connectOk dev).2 = false := by
      simp [devConnect, hc0, hok]
    simp [logMethod, hget, hhost, hc2]
  · intro o conn sock src cb reg u dev hget hhost hc2 hsvc
    simp [logMethod, hget, hhost, hc2, hsvc]

/-- A registered device that reports host-attached. -/
def devHostA : Device :=
  { makeDevice "a" with hostConnected := true }

/-- A log-call oracle whose connect fails. -/
def oLogBad : LogOracle :=
  { connectOk := false, startServiceOk := false, socketOk := true, sourceOk := true }

/-- A log-call oracle whose connect succeeds but whose syslog-relay service
start fails. -/
def oLogSvcBad : LogOracle :=
  { connectOk := true, startServiceOk := false, socketOk := true, sourceOk := true }

/-- C7, witness: the three error paths at concrete registries. -/
theorem c7_witness :
    logMethod oLogBad 1 2 3 4 [] "a" = ([], LogResult.errNotConnected)
    ∧ logMethod oLogBad 1 2 3 4 [makeDevice "a"] "a"
        = ([makeDevice "a"], LogResult.errNotHostAttached)
    ∧ (logMethod oLogBad 1 2 3 4 [devHostA] "a").2 = LogResult.errConnection
    ∧ (logMethod oLogSvcBad 1 2 3 4 [devHostA] "a").2 = LogResult.errService := by
  refine ⟨?_, ?_, ?_, ?_⟩
  · exact c7_stream_log_errors.1 oLogBad 1 2 3 4 [] "a" rfl
  · exact c7_stream_log_errors.2.1 oLogBad 1 2 3 4 [makeDevice "a"] "a"
      (makeDevice "a") (by decide) rfl
  · exact c7_stream_log_errors.2.2.1 oLogBad 1 2 3 4 [devHostA] "a"
      devHostA (by decide) rfl rfl rfl
  · exact c7_stream_log_errors.2.2.2 oLogSvcBad 1 2 3 4 [devHostA] "a"
      devHostA (by decide) rfl rfl rfl

/-! ## Claim theorems: enrichment failure tolerance (C8) -/

theorem deviceSet_udid (d : Device) (k : String) (v : Option String) :
    (deviceSet d k v).udid = d.udid := by
  cases v <;> rfl

theorem deviceSet_connected (d : Device) (k : String) (v : Option String) :
    (deviceSet d k v).connected = d.connected := by
  cases v <;> rfl

theorem foldl_deviceSet_udid (o : EnrichOutcome) :
    ∀ (ps : List (String × String)) (d : Device),
      (ps.foldl (fun a kv => deviceSet a kv.1 (o.fetch kv.2)) d).udid = d.udid := by
  intro ps
  induction ps with
  | nil => intro d; rfl
  | cons kv t ih =>
    intro d
    rw [List.foldl_cons, ih, deviceSet_udid]

theorem foldl_deviceSet_connected (o : EnrichOutcome) :
    ∀ (ps : List (String × String)) (d : Device),
      (ps.foldl (fun a kv => deviceSet a kv.1 (o.fetch kv.2)) d).connected
        = d.connected := by
  intro ps
  induction ps with
  | nil => intro d; rfl
  | cons kv t ih =>
    intro d
    rw [List.foldl_cons, ih, deviceSet_connected]

theorem devConnect_udid (ok : Bool) (d : Device) :
    ((devConnect ok d).1).udid = d.udid := by
  unfold devConnect
  split <;> rfl

theorem devConnect_props (ok : Bool) (d : Device) :
    ((devConnect ok d).1).props = d.props := by
  unfold devConnect
  split <;> rfl

theorem devDisconnect_udid (f : Bool) (d : Device) :
    (devDisconnect f d).udid = d.udid := by
  unfold devDisconnect
  split
  · rfl
  · split <;> rfl

theorem devDisconnect_props (f : Bool) (d : Device) :
    (devDisconnect f d).props = d.props := by
  unfold devDisconnect
  split
  · rfl
  · split <;> rfl

theorem devDisconnect_one (x : Device) (h : x.connected = 1) :
    (devDisconnect false x).connected = 0 := by
  simp [devDisconnect, h]

theorem workerEnrich_udid (o : EnrichOutcome) (d : Device) :
    (workerEnrich o d).udid = d.udid := by
  show (devDisconnect false
    (if (devConnect o.connectOk d).2 then
      { propKeys.foldl (fun a kv => deviceSet a kv.1 (o.fetch kv.2))
          (devConnect o.connectOk d).1 with
        hostConnected := o.hostAttachedNum == 1 }
     else (devConnect o.connectOk d).1)).udid = d.udid
  rw [devDisconnect_udid]
  split
  · show (propKeys.foldl (fun a kv => deviceSet a kv.1 (o.fetch kv.2))
        (devConnect o.connectOk d).1).udid = d.udid
    rw [foldl_deviceSet_udid, devConnect_udid]
  · rw [devConnect_udid]

theorem workerEnrich_makeDevice_connected (o : EnrichOutcome) (u : String) :
    (workerEnrich o (makeDevice u)).connected = 0 := by
  refine devDisconnect_one _ ?_
  split
  · show (propKeys.foldl (fun a kv => deviceSet a kv.1 (o.fetch kv.2))
        (devConnect o.connectOk (makeDevice u)).1).connected = 1
    rw [foldl_deviceSet_connected]
    simp [devConnect, makeDevice]
  · simp [devConnect, makeDevice]

theorem workerEnrich_fail_props (o : EnrichOutcome) (u : String)
    (h : o.connectOk = false) :
    (workerEnrich o (makeDevice u)).props = [("udid", u)] := by
  have h2 : (devConnect o.connectOk (makeDevice u)).2 = false := by
    simp [devConnect, makeDevice, h]
  show (devDisconnect false
    (if (devConnect o.connectOk (makeDevice u)).2 then
      { propKeys.foldl (fun a kv => deviceSet a kv.1 (o.fetch kv.2))
          (devConnect o.connectOk (makeDevice u)).1 with
        hostConnected := o.hostAttachedNum == 1 }
     else (devConnect o.connectOk (makeDevice u)).1)).props = [("udid", u)]
  rw [if_neg (by rw [h2]; exact Bool.false_ne_true)]
  rw [devDisconnect_props, devConnect_props]
  rfl

theorem insertProp_mem_of_ne :
    ∀ (ps : List (String × String)) (k v : String) (x : String × String),
      x.1 ≠ k → x ∈ ps → x ∈ insertProp ps k v := by
  intro ps
  induction ps with
  | nil =>
    intro k v x _ hx
    cases hx
  | cons p t ih =>
    intro k v x hne hx
    show x ∈ (if p.1 == k then (p.1, v) :: t else p :: insertProp t k v)
    by_cases hpk : (p.1 == k) = true
    · rw [if_pos hpk]
      cases hx with
      | head =>
        exact absurd (beq_iff_eq.mp hpk) hne
      | tail _ hxt =>
        exact List.mem_cons_of_mem _ hxt
    · rw [if_neg hpk]
      cases hx with
      | head => exact List.mem_cons_self _ _
      | tail _ hxt => exact List.mem_cons_of_mem _ (ih k v x hne hxt)

theorem foldl_deviceSet_mem (o : EnrichOutcome) :
    ∀ (ps : List (String × String)) (d : Device) (x : String × String),
      (∀ kv ∈ ps, kv.1 ≠ x.1) → x ∈ d.props →
      x ∈ (ps.foldl (fun a kv => deviceSet a kv.1 (o.fetch kv.2)) d).props := by
  intro ps
  induction ps with
  | nil =>
    intro d x _ hx
    exact hx
  | cons kv t ih =>
    intro d x hne hx
    rw [List.foldl_cons]
    refine ih _ x (fun kv2 h2 => hne kv2 (List.mem_cons_of_mem _ h2)) ?_
    cases hf : o.fetch kv.2 with
    | none =>
      show x ∈ d.props
      exact hx
    | some v =>
      show x ∈ insertProp d.props kv.1 v
      exact insertProp_mem_of_ne d.props kv.1 v x
        (fun hxk => hne kv (List.mem_cons_self _ _) hxk.symm) hx

theorem propKeys_ne_udid : ∀ kv ∈ propKeys, kv.1 ≠ "udid" := by
  decide

theorem workerEnrich_mem_udid (o : EnrichOutcome) (u : String) :
    ("udid", u) ∈ (workerEnrich o (makeDevice u)).props := by
  unfold workerEnrich
  rw [devDisconnect_props]
  split
  · refine foldl_deviceSet_mem o propKeys _ ("udid", u) propKeys_ne_udid ?_
    rw [devConnect_props]
    exact List.mem_cons_self _ _
  · rw [devConnect_props]
    exact List.mem_cons_self _ _

theorem containsKey_append_self (reg : List Device) (d : Device) (u : String)
    (hu : d.udid = u) :
    containsKey (reg ++ [d]) u = true := by
  simp [containsKey, List.any_append, hu]

theorem getValue_append (reg : List Device) (d : Device) (u : String)
    (h : containsKey reg u = false) (hu : d.udid = u) :
    getValue (reg ++ [d]) u = some d := by
  have hn := containsKey_false_getValue reg u h
  simp only [getValue] at hn ⊢
  rw [List.find?_append, hn]
  have hp : (d.udid == u) = true := beq_iff_eq.mpr hu
  have hfind : List.find? (fun x : Device => x.udid == u) [d] = some d :=
    List.find?_cons_of_pos [] hp
  rw [hfind]
  rfl

/-- C8: an enrichment worker run for a freshly attached device, whatever
the outcome of the external calls (including a failed connect), leaves the
device registered, keeps at least the identifier-only property, drives the
connection counter back to 0 (connection released on every path), always
decrements the pending counter with the clamp-at-zero rule, and fires the
waiter notification exactly when the counter reaches 0; on a failed connect
the stored properties are exactly the identifier-only data.  The model
function returns a state, not an error: no failure is surfaced to any
caller. -/
theorem c8_enrichment_failure_swallowed :
    ∀ (o : EnrichOutcome) (u : String) (s : SysState),
      containsKey s.registry u = false →
      containsKey ((getDeviceInfoRun o (makeDevice u) s).1).registry u = true
      ∧ getValue ((getDeviceInfoRun o (makeDevice u) s).1).registry u
          = some (workerEnrich o (makeDevice u))
      ∧ ("udid", u) ∈ (workerEnrich o (makeDevice u)).props
      ∧ (workerEnrich o (makeDevice u)).connected = 0
      ∧ (o.connectOk = false →
          (workerEnrich o (makeDevice u)).props = [("udid", u)])
      ∧ ((getDeviceInfoRun o (makeDevice u) s).1).pending
          = (endPending s.pending).1
      ∧ ((endPending s.pending).2 = true ↔ (endPending s.pending).1 = 0)
      ∧ ((getDeviceInfoRun o (makeDevice u) s).1).changed = true := by
  intro o u s h
  have hu : (workerEnrich o (makeDevice u)).udid = u := workerEnrich_udid o _
  have hreg : ((getDeviceInfoRun o (makeDevice u) s).1).registry
      = s.registry ++ [workerEnrich o (makeDevice u)] := by
    show (if containsKey s.registry (makeDevice u).udid then s.registry
        else s.registry ++ [workerEnrich o (makeDevice u)]) = _
    have : containsKey s.registry (makeDevice u).udid = false := h
    rw [this]
    rfl
  refine ⟨?_, ?_, workerEnrich_mem_udid o u,
    workerEnrich_makeDevice_connected o u,
    fun hf => workerEnrich_fail_props o u hf, rfl, beq_iff_eq, rfl⟩
  · rw [hreg]
    exact containsKey_append_self _ _ _ hu
  · rw [hreg]
    exact getValue_append _ _ _ h hu

/-- C8, witness: a worker whose connect fails, on the empty initial state,
still registers the device with identifier-only data, a released
connection and a properly decremented counter. -/
theorem c8_witness :
    containsKey ((getDeviceInfoRun oFail (makeDevice "a") initState).1).registry
        "a" = true
    ∧ getValue ((getDeviceInfoRun oFail (makeDevice "a") initState).1).registry
        "a" = some (workerEnrich oFail (makeDevice "a"))
    ∧ ("udid", "a") ∈ (workerEnrich oFail (makeDevice "a")).props
    ∧ (workerEnrich oFail (makeDevice "a")).connected = 0
    ∧ (oFail.connectOk = false →
        (workerEnrich oFail (makeDevice "a")).props = [("udid", "a")])
    ∧ ((getDeviceInfoRun oFail (makeDevice "a") initState).1).pending
        = (endPending initState.pending).1
    ∧ ((endPending initState.pending).2 = true ↔ (endPending initState.pending).1 = 0)
    ∧ ((getDeviceInfoRun oFail (makeDevice "a") initState).1).changed = true :=
  c8_enrichment_failure_swallowed oFail "a" initState rfl

/-! ## Claim theorems: registry tracks attach/detach (C6) -/

theorem beq_comm_str (a b : String) : (a == b) = (b == a) := by
  cases hq : (a == b) with
  | true =>
    have h := beq_iff_eq.mp hq
    subst h
    exact (beq_self_eq_true a).symm
  | false =>
    have hne := beq_eq_false_iff_ne.mp hq
    exact (beq_eq_false_iff_ne.mpr (fun h2 => hne h2.symm)).symm

theorem containsKey_eq_contains (reg : List Device) (u : String) :
    containsKey reg u = (regKeys reg).contains u := by
  induction reg with
  | nil => rfl
  | cons d t ih =>
    show ((d.udid == u) || containsKey t u)
        = ((u == d.udid) || (regKeys t).contains u)
    rw [ih, beq_comm_str d.udid u]

theorem regKeys_removeValue (reg : List Device) (u : String) :
    regKeys (removeValue reg u) = (regKeys reg).filter (fun v => !(v == u)) := by
  induction reg with
  | nil => rfl
  | cons d t ih =>
    cases hq : (d.udid == u) with
    | true =>
      have h1 : removeValue (d :: t) u = removeValue t u := by
        simp [removeValue, List.filter_cons, hq]
      have h2 : (regKeys (d :: t)).filter (fun v => !(v == u))
          = (regKeys t).filter (fun v => !(v == u)) := by
        simp [regKeys, List.filter_cons, hq]
      rw [h1, h2, ih]
    | false =>
      have h1 : removeValue (d :: t) u = d :: removeValue t u := by
        simp [removeValue, List.filter_cons, hq]
      have h2 : (regKeys (d :: t)).filter (fun v => !(v == u))
          = d.udid :: (regKeys t).filter (fun v => !(v == u)) := by
        simp [regKeys, List.filter_cons, hq]
      rw [h1]
      show d.udid :: regKeys (removeValue t u) = _
      rw [h2, ih]

theorem filter_ne_of_not_contains (ks : List String) (u : String)
    (h : ks.contains u = false) :
    ks.filter (fun v => !(v == u)) = ks := by
  induction ks with
  | nil => rfl
  | cons k t ih =>
    have hc : ((u == k) || t.contains u) = false := h
    have h1 : (u == k) = false ∧ t.contains u = false := by
      cases hq : (u == k) with
      | true => rw [hq] at hc; simp at hc
      | false =>
        refine ⟨rfl, ?_⟩
        rw [hq] at hc
        simpa using hc
    have hk : (k == u) = false := by
      rw [beq_comm_str k u]
      exact h1.1
    rw [List.filter_cons]
    simp only [hk, Bool.not_false, if_true]
    rw [ih h1.2]

theorem getDeviceInfoRun_keys (o : EnrichOutcome) (dev : Device) (s : SysState)
    (h : containsKey s.registry dev.udid = false) :
    regKeys ((getDeviceInfoRun o dev s).1).registry
      = regKeys s.registry ++ [dev.udid] := by
  show regKeys (if containsKey s.registry dev.udid then s.registry
      else s.registry ++ [workerEnrich o dev]) = _
  rw [h]
  show regKeys (s.registry ++ [workerEnrich o dev]) = _
  simp [regKeys, workerEnrich_udid]

theorem on_device_notification_keys (e : AEvent) (s : SysState) :
    regKeys ((on_device_notification e s).1).registry
      = attachedStep (regKeys s.registry) e := by
  cases hmsg : e.msg with
  | connected =>
    cases hex : containsKey s.registry e.udid with
    | false =>
      unfold on_device_notification
      rw [if_pos ⟨hex, hmsg⟩]
      rw [getDeviceInfoRun_keys e.outcome (makeDevice e.udid)
        { s with pending := beginPending s.pending } hex]
      have hcont : (regKeys s.registry).contains e.udid = false := by
        rw [← containsKey_eq_contains]
        exact hex
      have hmem : ¬ e.udid ∈ regKeys s.registry := by
        intro hm
        have h2 : (regKeys s.registry).contains e.udid = true := List.elem_iff.mpr hm
        exact Bool.noConfusion (h2.symm.trans hcont)
      show regKeys s.registry ++ [(makeDevice e.udid).udid]
          = attachedStep (regKeys s.registry) e
      rw [show (makeDevice e.udid).udid = e.udid from rfl]
      simp [attachedStep, hmsg, hmem]
    | true =>
      unfold on_device_notification
      rw [if_neg (by simp [hex]), if_neg (by simp [hmsg])]
      have hcont : (regKeys s.registry).contains e.udid = true := by
        rw [← containsKey_eq_contains]
        exact hex
      have hmem : e.udid ∈ regKeys s.registry := List.elem_iff.mp hcont
      simp [attachedStep, hmsg, hmem]
  | disconnected =>
    cases hex : containsKey s.registry e.udid with
    | true =>
      unfold on_device_notification
      rw [if_neg (by simp [hex]), if_pos ⟨hex, hmsg⟩]
      show regKeys (removeValue s.registry e.udid) = _
      rw [regKeys_removeValue]
      simp [attachedStep, hmsg]
    | false =>
      unfold on_device_notification
      rw [if_neg (by simp [hmsg]), if_neg (by simp [hex])]
      have hcont : (regKeys s.registry).contains e.udid = false := by
        rw [← containsKey_eq_contains]
        exact hex
      simp [attachedStep, hmsg, filter_ne_of_not_contains _ _ hcont]

theorem foldl_state_aux :
    ∀ (t : List AEvent) (a : SysState) (tr1 tr2 : List Ev),
      (t.foldl (fun acc e => ((on_device_notification e acc.1).1,
          acc.2 ++ (on_device_notification e acc.1).2)) (a, tr1)).1
      = (t.foldl (fun acc e => ((on_device_notification e acc.1).1,
          acc.2 ++ (on_device_notification e acc.1).2)) (a, tr2)).1 := by
  intro t
  induction t with
  | nil => intro a tr1 tr2; rfl
  | cons e t ih => intro a tr1 tr2; exact ih _ _ _

theorem processEvents_cons_state (e : AEvent) (t : List AEvent) (s : SysState) :
    (processEvents (e :: t) s).1
      = (processEvents t (on_device_notification e s).1).1 := by
  show (List.foldl (fun acc e => ((on_device_notification e acc.1).1,
      acc.2 ++ (on_device_notification e acc.1).2))
      ((on_device_notification e s).1, [] ++ (on_device_notification e s).2) t).1 = _
  exact foldl_state_aux t _ _ []

theorem processEvents_keys :
    ∀ (evs : List AEvent) (s : SysState),
      regKeys ((processEvents evs s).1).registry
        = evs.foldl attachedStep (regKeys s.registry) := by
  intro evs
  induction evs with
  | nil => intro s; rfl
  | cons e t ih =>
    intro s
    rw [List.foldl_cons, ← on_device_notification_keys e s,
      ← ih ((on_device_notification e s).1), processEvents_cons_state]

/-- C6: processing any serialized sequence of attach/detach notifications
(with no duplicate consecutive attach for one identifier) from the initial
state leaves the registry holding exactly the currently-attached
identifiers; an attach for a udid already present and a detach for a udid
not present are exact no-ops - same state, no actions, in particular no
worker spawned and no registry-size change. -/
theorem c6_registry_tracks_attach_detach :
    (∀ evs : List AEvent, noDupConsecAttach evs = true →
        regKeys ((processEvents evs initState).1).registry = attachedFold evs)
    ∧ (∀ (e : AEvent) (s : SysState),
        containsKey s.registry e.udid = true → e.msg = AmMsg.connected →
        on_device_notification e s = (s, []))
    ∧ (∀ (e : AEvent) (s : SysState),
        containsKey s.registry e.udid = false → e.msg = AmMsg.disconnected →
        on_device_notification e s = (s, [])) := by
  refine ⟨?_, ?_, ?_⟩
  · intro evs _
    rw [processEvents_keys evs initState]
    rfl
  · intro e s hex hmsg
    unfold on_device_notification
    rw [if_neg (by simp [hex]), if_neg (by simp [hmsg])]
  · intro e s hex hmsg
    unfold on_device_notification
    rw [if_neg (by simp [hmsg]), if_neg (by simp [hex])]

/-- C6, witness: attach "a", attach "b" (its enrichment failing), detach
"a" leaves exactly "b" registered; a re-attach of a present udid and a
detach of an absent udid are no-ops. -/
theorem c6_witness :
    regKeys ((processEvents
        [⟨AmMsg.connected, "a", o0⟩, ⟨AmMsg.connected, "b", oFail⟩,
         ⟨AmMsg.disconnected, "a", o0⟩] initState).1).registry
      = attachedFold
        [⟨AmMsg.connected, "a", o0⟩, ⟨AmMsg.connected, "b", oFail⟩,
         ⟨AmMsg.disconnected, "a", o0⟩]
    ∧ on_device_notification ⟨AmMsg.connected, "a", o0⟩
        { registry := [makeDevice "a"], pending := 0, changed := false }
      = ({ registry := [makeDevice "a"], pending := 0, changed := false }, [])
    ∧ on_device_notification ⟨AmMsg.disconnected, "b", o0⟩ initState
      = (initState, []) := by
  refine ⟨?_, ?_, ?_⟩
  · exact c6_registry_tracks_attach_detach.1 _ (by decide)
  · exact c6_registry_tracks_attach_detach.2.1 _ _ (by decide) rfl
  · exact c6_registry_tracks_attach_detach.2.2 _ _ rfl rfl

end IosDevice
